import Mathlib

/-!
Verification development for the EduHub learning-platform data layer
(`src/eduhub_queries.py`).  The MongoDB collections are embedded as Lean
lists of documents, and each operation or aggregation pipeline of the
source is translated into an executable Lean function over those lists.
Aggregation stages are modelled by their documented semantics:
`$lookup` pairs each base document with the matching foreign documents,
`$unwind` flattens one output row per match (dropping rows with no
match), `$group` buckets rows by a key, and `$sort` orders buckets by a
computed field.  Machine-level details (BSON object ids, datetimes) that
no claim depends on are either omitted or carried as abstract `Nat`
timestamps.
-/

set_option maxRecDepth 4000

/-! ## Generic string helpers (byte-wise comparison, split, parse, pad)

MongoDB compares plain strings byte-wise; for the ASCII ids used here
this is exactly lexicographic comparison of the character lists. -/

/-- Lexicographic strict comparison of character lists (BSON string order
for ASCII strings). -/
def lexLt : List Char → List Char → Bool
  | [], [] => false
  | [], _ :: _ => true
  | _ :: _, [] => false
  | a :: as, b :: bs => if a < b then true else if b < a then false else lexLt as bs

/-- Maximum of a list of strings in `lexLt` order; models
`find().sort(field, -1).limit(1)` on a string field. -/
def lexMaxStr (l : List String) : Option String :=
  l.foldl
    (fun acc s =>
      match acc with
      | none => some s
      | some t => if lexLt t.data s.data then some s else some t)
    none

/-- Split a character list on a separator, Python `str.split(sep)`. -/
def splitOnChar (sep : Char) : List Char → List (List Char)
  | [] => [[]]
  | c :: cs =>
    let r := splitOnChar sep cs
    if c = sep then [] :: r
    else
      match r with
      | [] => [[c]]
      | w :: ws => (c :: w) :: ws

/-- Parse a non-empty all-digit character list as a decimal number,
Python `int(s)` restricted to the unsigned digit strings that occur
in display ids. -/
def parseNat? (cs : List Char) : Option Nat :=
  if cs ≠ [] ∧ cs.all (fun c => c.isDigit) then
    some (cs.foldl (fun n c => 10 * n + (c.toNat - '0'.toNat)) 0)
  else none

/-- Numeric suffix of a display id: `int(s.split("_")[1])`, with `0` for
the malformed strings that the Python code would crash on. -/
def parseSuffix (s : String) : Nat :=
  (parseNat? ((splitOnChar '_' s.data).getD 1 [])).getD 0

/-- Left-pad a character list with zeros to width `w`, Python `str.zfill`. -/
def zfill (w : Nat) (cs : List Char) : List Char :=
  List.replicate (w - cs.length) '0' ++ cs

/-- Display id built from a fixed id stem and a zero-padded numeric
suffix, e.g. `STU_007`. -/
def displayId (pre : List Char) (n : Nat) : String :=
  ⟨pre ++ zfill 3 (Nat.repr n).data⟩

def stuPre : List Char := "STU_".data
def instPre : List Char := "INST_".data
def coursePre : List Char := "COURSE_".data
def enrollPre : List Char := "ENROLL_".data
def lessonPre : List Char := "LESSON_".data

/-- ASCII lower-casing of one character, Python `str.lower` per char. -/
def lowerChar (c : Char) : Char :=
  if 'A' ≤ c ∧ c ≤ 'Z' then Char.ofNat (c.toNat + 32) else c

/-- ASCII lower-casing of a string. -/
def lowerStr (s : String) : String := ⟨s.data.map lowerChar⟩

/-! ## Generic aggregation-stage helpers -/

/-- A `$lookup` immediately followed by `$unwind` of the joined array:
one output row per (base document, matching foreign document) pair;
base documents with no match produce no row. -/
def lookupUnwind {α β : Type} (k₁ : α → String) (k₂ : β → String)
    (foreign : List β) (docs : List α) : List (α × β) :=
  docs.flatMap (fun d => (foreign.filter (fun f => k₂ f = k₁ d)).map (fun f => (d, f)))

/-- The `$avg` accumulator: null/missing values are skipped, and the
average of an empty set of values is null. -/
def avgOpt (l : List (Option ℚ)) : Option ℚ :=
  let vs := l.filterMap id
  if vs.length = 0 then none else some (vs.sum / (vs.length : ℚ))

/-- Sort key embedding for a nullable numeric field: BSON orders null
below every number. -/
def optKey (o : Option ℚ) : WithBot ℚ :=
  match o with
  | none => ⊥
  | some q => (q : WithBot ℚ)

/-- Relation used by a descending `$sort` on the key `f`. -/
def descRel {α κ : Type} [LinearOrder κ] (f : α → κ) : α → α → Prop :=
  fun a b => f b ≤ f a

instance {α κ : Type} [LinearOrder κ] (f : α → κ) : DecidableRel (descRel f) :=
  fun a b => inferInstanceAs (Decidable (f b ≤ f a))

instance {α κ : Type} [LinearOrder κ] (f : α → κ) : IsTotal α (descRel f) :=
  ⟨fun a b => (le_total (f a) (f b)).symm⟩

instance {α κ : Type} [LinearOrder κ] (f : α → κ) : IsTrans α (descRel f) :=
  ⟨fun _ _ _ h₁ h₂ => le_trans h₂ h₁⟩

/-- A `$sort` stage with direction `-1` on the computed key `f`. -/
def sortByDesc {α κ : Type} [LinearOrder κ] (f : α → κ) (l : List α) : List α :=
  l.insertionSort (descRel f)

theorem sortByDesc_sorted {α κ : Type} [LinearOrder κ] (f : α → κ) (l : List α) :
    (sortByDesc f l).Sorted (descRel f) :=
  List.sorted_insertionSort (descRel f) l

theorem sortByDesc_perm {α κ : Type} [LinearOrder κ] (f : α → κ) (l : List α) :
    (sortByDesc f l).Perm l :=
  List.perm_insertionSort (descRel f) l

/-! ## Document structures (the fields the verified operations read) -/

structure Profile where
  bio : String
  skills : List String
  avatar : String
deriving DecidableEq, Repr

structure UserDoc where
  userId : String
  email : String
  firstName : String
  lastName : String
  role : String
  profile : Profile
  isActive : Bool
deriving DecidableEq, Repr

structure Course where
  courseId : String
  title : String
  instructorId : String
  category : Option String
  price : ℚ
  tags : List String
  updatedAt : Nat
deriving DecidableEq, Repr

structure Enrollment where
  enrollmentId : String
  studentId : String
  courseId : String
  status : String
  progress : ℚ
deriving DecidableEq, Repr

structure Assignment where
  assignmentId : String
  courseId : String
deriving DecidableEq, Repr

structure Submission where
  submissionId : String
  assignmentId : String
  studentId : String
  grade : Option ℚ
deriving DecidableEq, Repr

/-! ## Aggregation pipelines (PART 4 of the source) -/

structure CourseStat where
  courseId : String
  title : String
  enrollmentCount : Nat
  price : ℚ
deriving DecidableEq, Repr

structure CategoryStats where
  category : Option String
  totalCourses : Nat
  totalEnrollments : Nat
  averagePrice : Option ℚ
  courses : List CourseStat
deriving DecidableEq, Repr

/-- The `$group` accumulators of `get_course_enrollment_statistics`
for one category bucket: `$sum 1`, `$sum $size`, `$avg $price` and the
`$push` of per-course projections, over the rows whose category is `k`. -/
def categoryBucket (withEnr : List (Course × List Enrollment)) (k : Option String) :
    CategoryStats :=
  let grp := withEnr.filter (fun t => t.1.category = k)
  { category := k
    totalCourses := grp.length
    totalEnrollments := (grp.map (fun t => t.2.length)).sum
    averagePrice := avgOpt (grp.map (fun t => some t.1.price))
    courses := grp.map (fun t => ⟨t.1.courseId, t.1.title, t.2.length, t.1.price⟩) }

/-- `get_course_enrollment_statistics`: lookup of each course's
enrollments, `$group` by category with count/sum/avg/push accumulators,
then `$sort` by `totalEnrollments` descending. -/
def courseEnrollmentStatistics (courses : List Course) (enrollments : List Enrollment) :
    List CategoryStats :=
  let withEnr := courses.map (fun c => (c, enrollments.filter (fun e => e.courseId = c.courseId)))
  let keys := (withEnr.map (fun t => t.1.category)).dedup
  sortByDesc (fun b => b.totalEnrollments) (keys.map (categoryBucket withEnr))

structure PerfStats where
  studentId : String
  studentName : Option String
  averageGrade : Option ℚ
  totalSubmissions : Nat
  coursesParticipated : List String
  coursesCount : Nat
deriving DecidableEq, Repr

/-- The `$group` accumulators of `get_student_performance_analysis`
for one student bucket: `$first` of the concatenated name, `$avg` over
`grade`, `$sum 1` and the `$addToSet` of course ids, over the rows whose
`studentId` is `k`. -/
def perfBucket (s₂ : List ((Submission × Assignment) × UserDoc)) (k : String) : PerfStats :=
  let grp := s₂.filter (fun t => t.1.1.studentId = k)
  { studentId := k
    studentName := grp.head?.map (fun t => t.2.firstName ++ " " ++ t.2.lastName)
    averageGrade := avgOpt (grp.map (fun t => t.1.1.grade))
    totalSubmissions := grp.length
    coursesParticipated := (grp.map (fun t => t.1.2.courseId)).dedup
    coursesCount := ((grp.map (fun t => t.1.2.courseId)).dedup).length }

/-- `get_student_performance_analysis`: submissions joined (and
unwound) with their assignment and their student, `$group` by
`studentId` with `$avg` over `grade`, `$sum 1`, `$addToSet` of course
ids, then `$sort` by `averageGrade` descending (null below numbers). -/
def studentPerformanceAnalysis (submissions : List Submission)
    (assignments : List Assignment) (users : List UserDoc) : List PerfStats :=
  let s₁ := lookupUnwind (fun s => s.assignmentId) (fun a => a.assignmentId) assignments submissions
  let s₂ := lookupUnwind (fun t => t.1.studentId) (fun u => u.userId) users s₁
  let keys := (s₂.map (fun t => t.1.1.studentId)).dedup
  sortByDesc (fun b => optKey b.averageGrade) (keys.map (perfBucket s₂))

structure InstructorCourse where
  title : String
  enrollments : Nat
  revenue : ℚ
deriving DecidableEq, Repr

structure InstructorStats where
  instructorId : String
  instructorName : Option String
  totalCourses : Nat
  totalStudents : Nat
  totalRevenue : ℚ
  courses : List InstructorCourse
deriving DecidableEq, Repr

/-- The `$group` accumulators of `get_instructor_analytics` for one
instructor bucket: `$first` of the concatenated name, `$sum 1`,
`$sum $size`, the revenue `$sum` of `price * $size`, and the `$push` of
per-course projections, over the rows whose `instructorId` is `k`. -/
def instrBucket (s₂ : List ((Course × UserDoc) × List Enrollment)) (k : String) :
    InstructorStats :=
  let grp := s₂.filter (fun t => t.1.1.instructorId = k)
  { instructorId := k
    instructorName := grp.head?.map (fun t => t.1.2.firstName ++ " " ++ t.1.2.lastName)
    totalCourses := grp.length
    totalStudents := (grp.map (fun t => t.2.length)).sum
    totalRevenue := (grp.map (fun t => t.1.1.price * (t.2.length : ℚ))).sum
    courses := grp.map (fun t => ⟨t.1.1.title, t.2.length, t.1.1.price * (t.2.length : ℚ)⟩) }

/-- `get_instructor_analytics`: courses joined (and unwound) with their
instructor user, lookup of each course's enrollments, `$group` by
`instructorId` with revenue `price * size(enrollments)`, then `$sort`
by `totalRevenue` descending. -/
def instructorAnalytics (courses : List Course) (enrollments : List Enrollment)
    (users : List UserDoc) : List InstructorStats :=
  let s₁ := lookupUnwind (fun c => c.instructorId) (fun u => u.userId) users courses
  let s₂ := s₁.map (fun t => (t, enrollments.filter (fun e => e.courseId = t.1.courseId)))
  let keys := (s₂.map (fun t => t.1.1.instructorId)).dedup
  sortByDesc (fun b => b.totalRevenue) (keys.map (instrBucket s₂))

/-! ## CRUD operations (PART 3 of the source) -/

/-- The numeric suffix the next student id will use: read the
lexicographically largest existing student `userId`, parse its suffix
and add one; `1` when no student exists
(`register_new_student`, id-generation block). -/
def nextStudentSuffix (users : List UserDoc) : Nat :=
  match lexMaxStr ((users.filter (fun u => u.role = "student")).map (fun u => u.userId)) with
  | none => 1
  | some s => parseSuffix s + 1

/-- `register_new_student`: build the new student document with the
derived display id and insert it; the unique indexes on `userId` and
`email` make the insert fail (returning null) on a duplicate. -/
def registerNewStudent (users : List UserDoc) (emailAddress firstName lastName biography : String)
    (skillList : List String) : Option String × List UserDoc :=
  let n := nextStudentSuffix users
  let uid := displayId stuPre n
  let rec' : UserDoc :=
    { userId := uid
      email := emailAddress
      firstName := firstName
      lastName := lastName
      role := "student"
      profile :=
        { bio := biography
          skills := skillList
          avatar := "https://avatars.example.com/student_" ++ Nat.repr n ++ ".png" }
      isActive := true }
  if users.any (fun u => u.userId = uid ∨ u.email = emailAddress) then (none, users)
  else (some uid, users ++ [rec'])

/-- The numeric suffix the next course id will use
(`create_new_course`, id-generation block). -/
def nextCourseSuffix (courses : List Course) : Nat :=
  match lexMaxStr (courses.map (fun c => c.courseId)) with
  | none => 1
  | some s => parseSuffix s + 1

/-- `create_new_course`: build the new course document with the derived
display id and insert it; the unique index on `courseId` makes the
insert fail (returning null) on a duplicate. -/
def createNewCourse (courses : List Course) (courseTitle : String)
    (instructorId : String) (courseCategory : String) (coursePrice : ℚ)
    (tagList : List String) (now : Nat) : Option String × List Course :=
  let n := nextCourseSuffix courses
  let cid := displayId coursePre n
  let rec' : Course :=
    { courseId := cid
      title := courseTitle
      instructorId := instructorId
      category := some courseCategory
      price := coursePrice
      tags := tagList
      updatedAt := now }
  if courses.any (fun c => c.courseId = cid) then (none, courses)
  else (some cid, courses ++ [rec'])

/-- `register_student_for_course`: decline with the null sentinel when
an enrollment for the same (student, course) pair already exists;
otherwise derive the next enrollment display id and insert a fresh
active enrollment. -/
def registerStudentForCourse (enrollments : List Enrollment) (studentId courseId : String) :
    Option String × List Enrollment :=
  if enrollments.any (fun e => e.studentId = studentId ∧ e.courseId = courseId) then
    (none, enrollments)
  else
    let n :=
      match lexMaxStr (enrollments.map (fun e => e.enrollmentId)) with
      | none => 1
      | some s => parseSuffix s + 1
    let eid := displayId enrollPre n
    let rec' : Enrollment :=
      { enrollmentId := eid
        studentId := studentId
        courseId := courseId
        status := "active"
        progress := 0 }
    if enrollments.any (fun e => e.enrollmentId = eid) then (none, enrollments)
    else (some eid, enrollments ++ [rec'])

/-- `update_one`: update the first document matching the filter, or do
nothing; returns MongoDB's `modified_count` (a matched document counts
only when the update actually changed it). -/
def updateOne {α : Type} [DecidableEq α] (p : α → Bool) (f : α → α) :
    List α → Nat × List α
  | [] => (0, [])
  | x :: xs =>
    if p x then ((if f x = x then 0 else 1), f x :: xs)
    else
      let r := updateOne p f xs
      (r.1, x :: r.2)

/-- `update_user_profile`: collect the supplied optional profile fields;
with none supplied, return 0 without issuing any write, otherwise
`$set` exactly the supplied `profile.*` subfields of the matched user. -/
def updateUserProfile (users : List UserDoc) (userId : String)
    (newBio : Option String) (newSkills : Option (List String)) (newAvatar : Option String) :
    Nat × List UserDoc :=
  if newBio = none ∧ newSkills = none ∧ newAvatar = none then (0, users)
  else
    updateOne (fun u => u.userId = userId)
      (fun u =>
        { u with
          profile :=
            { bio := newBio.getD u.profile.bio
              skills := newSkills.getD u.profile.skills
              avatar := newAvatar.getD u.profile.avatar } })
      users

/-- The `$addToSet ... $each` array mutation: append, in order, each
given element that is not already present; elements already present
(or repeated within the given list) are not appended again. -/
def addToSetEach (old extra : List String) : List String :=
  extra.foldl (fun acc t => if t ∈ acc then acc else acc ++ [t]) old

/-- `add_tags_to_course`: `$addToSet` the given tags into the matched
course's `tags` array and `$set` a fresh `updatedAt` stamp. -/
def addTagsToCourse (courses : List Course) (courseId : String)
    (additionalTags : List String) (now : Nat) : Nat × List Course :=
  updateOne (fun c => c.courseId = courseId)
    (fun c => { c with tags := addToSetEach c.tags additionalTags, updatedAt := now })
    courses

/-! ## Sample-data generator (PART 2 of the source)

`random.choice`/`random.randint` draws are abstracted as oracle
functions indexed by the loop position; no claim depends on the drawn
values, only on the shape of the produced lists. -/

structure UserGen where
  givenName : Nat → String
  familyName : Nat → String
  domain : Nat → String
  instrBio : Nat → String
  studentBio : Nat → String
  instrSkills : Nat → List String
  studentSkills : Nat → List String

/-- `build_user_records`: `record_count // 4` instructors
(`INST_...` ids) followed by the remaining students (`STU_...` ids). -/
def buildUserRecords (gen : UserGen) (recordCount : Nat) : List UserDoc :=
  let instructorCount := recordCount / 4
  let instructors : List UserDoc := (List.range instructorCount).map (fun idx =>
    { userId := displayId instPre (idx + 1)
      email := lowerStr (gen.givenName idx) ++ "." ++ lowerStr (gen.familyName idx)
        ++ "@" ++ gen.domain idx
      firstName := gen.givenName idx
      lastName := gen.familyName idx
      role := "instructor"
      profile :=
        { bio := gen.instrBio idx
          skills := gen.instrSkills idx
          avatar := "https://avatars.example.com/instructor_" ++ Nat.repr (idx + 1) ++ ".png" }
      isActive := true })
  let studentCount := recordCount - instructorCount
  let students : List UserDoc := (List.range studentCount).map (fun idx =>
    { userId := displayId stuPre (idx + 1)
      email := lowerStr (gen.givenName idx) ++ "." ++ lowerStr (gen.familyName idx)
        ++ Nat.repr idx ++ "@" ++ gen.domain idx
      firstName := gen.givenName idx
      lastName := gen.familyName idx
      role := "student"
      profile :=
        { bio := gen.studentBio idx
          skills := gen.studentSkills idx
          avatar := "https://avatars.example.com/student_" ++ Nat.repr (idx + 1) ++ ".png" }
      isActive := true })
  instructors ++ students

/-- The fixed title pool of `build_course_records`. -/
def courseTitles : List String :=
  ["Complete Python Programming",
   "Modern Web Development",
   "Data Science Fundamentals",
   "JavaScript for Beginners",
   "Database Management Systems",
   "React Application Development",
   "Backend Development with Node",
   "Introduction to Machine Learning"]

/-- Tags derived from a course title: lower-cased words longer than 3
characters. -/
def tagsOfTitle (title : String) : List String :=
  ((splitOnChar ' ' title.data).filter (fun w => 3 < w.length)).map
    (fun w => lowerStr ⟨w⟩)

structure CourseGen where
  instructor : Nat → String
  category : Nat → String
  level : Nat → String
  price : Nat → ℚ
  updatedAt : Nat → Nat

/-- `build_course_records`: one course per index in
`range(min(record_count, len(course_titles)))`, so the output is capped
by the size of the fixed title pool. -/
def buildCourseRecords (gen : CourseGen) (recordCount : Nat) : List Course :=
  (List.range (min recordCount courseTitles.length)).map (fun idx =>
    { courseId := displayId coursePre (idx + 1)
      title := courseTitles.getD idx ""
      instructorId := gen.instructor idx
      category := some (gen.category idx)
      price := gen.price idx
      tags := tagsOfTitle (courseTitles.getD idx "")
      updatedAt := gen.updatedAt idx })

/-- The inner retry loop of `build_enrollment_records`: up to `fuel`
draws of a (student, course) pair, returning the first one not yet
used; `none` when the attempt budget is exhausted. -/
def searchFresh (pick : Nat → String × String) (used : List (String × String)) :
    Nat → Nat → Option (String × String)
  | _, 0 => none
  | a, fuel + 1 =>
    let p := pick a
    if p ∈ used then searchFresh pick used (a + 1) fuel else some p

structure EnrollGen where
  pair : Nat → Nat → String × String
  status : Nat → String
  progress : Nat → ℚ

/-- The slot loop of `build_enrollment_records`: each slot searches for
a fresh (student, course) pair within a 50-attempt budget; a slot whose
search fails is skipped and produces no record. -/
def buildEnrollAux (gen : EnrollGen) : Nat → Nat → List (String × String) → List Enrollment
  | _, 0, _ => []
  | idx, n + 1, used =>
    match searchFresh (gen.pair idx) used 0 50 with
    | none => buildEnrollAux gen (idx + 1) n used
    | some p =>
      { enrollmentId := displayId enrollPre (idx + 1)
        studentId := p.1
        courseId := p.2
        status := gen.status idx
        progress := gen.progress idx } :: buildEnrollAux gen (idx + 1) n (p :: used)

/-- `build_enrollment_records`. -/
def buildEnrollmentRecords (gen : EnrollGen) (recordCount : Nat) : List Enrollment :=
  buildEnrollAux gen 0 recordCount []

/-! ## Concrete fixture documents used by witnesses and counterexamples -/

def mkStudent (uid : String) : UserDoc :=
  { userId := uid
    email := uid ++ "@example.org"
    firstName := "Alex"
    lastName := "Parker"
    role := "student"
    profile := { bio := "learner", skills := ["Python"], avatar := "a.png" }
    isActive := true }

def mkInstructor (uid : String) : UserDoc :=
  { userId := uid
    email := uid ++ "@example.org"
    firstName := "Riley"
    lastName := "Reed"
    role := "instructor"
    profile := { bio := "teacher", skills := ["MongoDB"], avatar := "i.png" }
    isActive := true }

def mkCourse (cid : String) (cat : String) (price : ℚ) : Course :=
  { courseId := cid
    title := "Complete Python Programming"
    instructorId := "INST_001"
    category := some cat
    price := price
    tags := ["python", "programming"]
    updatedAt := 0 }

def mkEnrollment (eid sid cid : String) : Enrollment :=
  { enrollmentId := eid
    studentId := sid
    courseId := cid
    status := "active"
    progress := 0 }

def mkSubmission (sub : String) (aid : String) (sid : String) (g : Option ℚ) : Submission :=
  { submissionId := sub, assignmentId := aid, studentId := sid, grade := g }

/-- A course that already carries a duplicated tag, as a caller of
`create_new_course` may store (`tag_list` is inserted verbatim). -/
def dupTagCourse : Course :=
  { courseId := "COURSE_001"
    title := "Modern Web Development"
    instructorId := "INST_001"
    category := some "Web Development"
    price := 200
    tags := ["web", "web"]
    updatedAt := 0 }

def zeroCourseGen : CourseGen :=
  ⟨fun _ => "INST_001", fun _ => "Programming", fun _ => "beginner", fun _ => 150, fun _ => 0⟩

def zeroUserGen : UserGen :=
  ⟨fun _ => "Alex", fun _ => "Parker", fun _ => "example.org",
   fun _ => "b", fun _ => "b", fun _ => ["Python"], fun _ => ["Java"]⟩

/-- Submissions of one student: two graded (80 and 90) and one
ungraded, the worked example of the specification. -/
def subs85 : List Submission :=
  [mkSubmission "SUB_001" "ASSIGN_001" "STU_001" (some 80),
   mkSubmission "SUB_002" "ASSIGN_001" "STU_001" (some 90),
   mkSubmission "SUB_003" "ASSIGN_001" "STU_001" none]

/-- A student whose only submission is ungraded. -/
def subsNoGrade : List Submission :=
  [mkSubmission "SUB_001" "ASSIGN_001" "STU_002" none]

def oneAssign : List Assignment := [⟨"ASSIGN_001", "COURSE_001"⟩]

/-- The row stage the student-performance `$group` consumes: submissions
joined and unwound with their assignment, then with their student. -/
def perfRows (subs : List Submission) (assigns : List Assignment) (users : List UserDoc) :
    List ((Submission × Assignment) × UserDoc) :=
  lookupUnwind (fun t => t.1.studentId) (fun u => u.userId) users
    (lookupUnwind (fun s => s.assignmentId) (fun a => a.assignmentId) assigns subs)

/-- The row stage the instructor-analytics `$group` consumes: courses
joined and unwound with their instructor, then paired with their
enrollment list. -/
def instrRows (courses : List Course) (enrollments : List Enrollment) (users : List UserDoc) :
    List ((Course × UserDoc) × List Enrollment) :=
  (lookupUnwind (fun c => c.instructorId) (fun u => u.userId) users courses).map
    (fun t => (t, enrollments.filter (fun e => e.courseId = t.1.courseId)))

def twoEnrollsOneCourse : List Enrollment :=
  [mkEnrollment "ENROLL_001" "STU_001" "COURSE_001",
   mkEnrollment "ENROLL_002" "STU_002" "COURSE_001"]

/-! ## List counting and partition lemmas -/

theorem sum_map_add (g h : α → Nat) (l : List α) :
    (l.map (fun x => g x + h x)).sum = (l.map g).sum + (l.map h).sum := by
  induction l with
  | nil => simp
  | cons x xs ih => simp only [List.map_cons, List.sum_cons, ih]; omega

theorem sum_map_ite_single {κ : Type} [DecidableEq κ] (k₀ : κ) (c : Nat) :
    ∀ (K : List κ), K.Nodup → k₀ ∈ K →
      (K.map (fun k => if k₀ = k then c else 0)).sum = c := by
  intro K
  induction K with
  | nil => intro _ h; cases h
  | cons k ks ih =>
    intro hnd hmem
    rcases List.mem_cons.mp hmem with h | h
    · subst h
      have hzero : (ks.map (fun k => if k₀ = k then c else 0)).sum = 0 := by
        apply List.sum_eq_zero
        intro x hx
        rcases List.mem_map.mp hx with ⟨y, hy, rfl⟩
        have hne : k₀ ≠ y := by
          rintro rfl
          exact (List.nodup_cons.mp hnd).1 hy
        simp [hne]
      simp [hzero]
    · have hne : k₀ ≠ k := by
        rintro rfl
        exact (List.nodup_cons.mp hnd).1 h
      simp only [List.map_cons, List.sum_cons, if_neg hne]
      rw [ih (List.nodup_cons.mp hnd).2 h]
      omega

theorem sum_map_ite_filter (p : α → Bool) (l : List α) :
    (l.map (fun x => if p x then 1 else 0)).sum = (l.filter p).length := by
  induction l with
  | nil => simp
  | cons x xs ih =>
    by_cases h : p x = true <;> simp [List.filter_cons, h, ih] <;> omega

theorem sum_over_groups {κ : Type} [DecidableEq κ] (key : α → κ) (f : α → Nat) :
    ∀ (l : List α) (K : List κ), K.Nodup → (∀ x ∈ l, key x ∈ K) →
      (K.map (fun k => ((l.filter (fun x => key x = k)).map f).sum)).sum = (l.map f).sum := by
  intro l
  induction l with
  | nil => intro K _ _; simp [List.sum_eq_zero]
  | cons x xs ih =>
    intro K hnd hall
    have step : ∀ k : κ,
        ((List.filter (fun y => key y = k) (x :: xs)).map f).sum
          = (if key x = k then f x else 0) + ((xs.filter (fun y => key y = k)).map f).sum := by
      intro k
      by_cases h : key x = k <;> simp [List.filter_cons, h]
    rw [show (fun k => ((List.filter (fun y => key y = k) (x :: xs)).map f).sum)
          = (fun k => (if key x = k then f x else 0)
              + ((xs.filter (fun y => key y = k)).map f).sum) from funext step]
    rw [sum_map_add, sum_map_ite_single (key x) (f x) K hnd (hall x (List.mem_cons_self x xs)),
      ih K hnd (fun y hy => hall y (List.mem_cons_of_mem x hy))]
    simp

theorem sum_count_swap (p : γ → ε → Bool) (E : List ε) :
    ∀ (C : List γ),
      (C.map (fun c => (E.filter (fun e => p c e)).length)).sum
        = (E.map (fun e => (C.filter (fun c => p c e)).length)).sum := by
  intro C
  induction C with
  | nil => simp [List.sum_eq_zero]
  | cons c C ih =>
    simp only [List.map_cons, List.sum_cons, ih]
    have step : ∀ e : ε,
        (List.filter (fun x => p x e) (c :: C)).length
          = (if p c e then 1 else 0) + (C.filter (fun x => p x e)).length := by
      intro e
      by_cases h : p c e = true <;> simp [List.filter_cons, h] <;> omega
    rw [show (fun e => (List.filter (fun x => p x e) (c :: C)).length)
          = (fun e => (if p c e then 1 else 0) + (C.filter (fun x => p x e)).length)
          from funext step]
    rw [sum_map_add, sum_map_ite_filter]

theorem filter_key_length_one {κ : Type} [DecidableEq κ] (key : α → κ) (v : κ) :
    ∀ (l : List α), (l.map key).Nodup → (∃ x ∈ l, key x = v) →
      (l.filter (fun x => key x = v)).length = 1 := by
  intro l
  induction l with
  | nil => rintro _ ⟨x, hx, -⟩; cases hx
  | cons x xs ih =>
    intro hnd hex
    by_cases h : key x = v
    · have hnone : ∀ y ∈ xs, ¬(key y = v) := by
        intro y hy hkey
        have : key x ∈ xs.map key := by
          rw [h, ← hkey]; exact List.mem_map_of_mem key hy
        exact (List.nodup_cons.mp (by simpa using hnd)).1 this
      have : xs.filter (fun y => key y = v) = [] :=
        List.filter_eq_nil_iff.mpr (by intro y hy; simpa using hnone y hy)
      simp [List.filter_cons, h, this]
    · rcases hex with ⟨y, hy, hkey⟩
      rcases List.mem_cons.mp hy with rfl | hy'
      · exact absurd hkey h
      · have := ih (by simpa using (List.nodup_cons.mp (by simpa using hnd)).2) ⟨y, hy', hkey⟩
        simp [List.filter_cons, h, this]

theorem lookupUnwind_map_fst {β : Type} (k₁ : α → String) (k₂ : β → String) (F : List β)
    (hnd : (F.map k₂).Nodup) :
    ∀ (docs : List α), (∀ d ∈ docs, ∃ f ∈ F, k₂ f = k₁ d) →
      (lookupUnwind k₁ k₂ F docs).map Prod.fst = docs := by
  intro docs
  induction docs with
  | nil => intro _; simp [lookupUnwind]
  | cons d ds ih =>
    intro hall
    have h1 : (F.filter (fun f => k₂ f = k₁ d)).length = 1 :=
      filter_key_length_one k₂ (k₁ d) F hnd (hall d (List.mem_cons_self d ds))
    rcases List.length_eq_one.mp h1 with ⟨f₀, hf₀⟩
    have hrest := ih (fun x hx => hall x (List.mem_cons_of_mem d hx))
    simp only [lookupUnwind, List.flatMap_cons, List.map_append, hf₀, List.map_cons,
      List.map_nil, List.cons_append, List.nil_append]
    simp only [lookupUnwind] at hrest
    rw [hrest]

theorem filter_map_comp {β γ : Type} (g : α → β) (l : List α) (m : List β) (hm : l.map g = m)
    (p : β → Bool) (h : β → γ) :
    (m.filter p).map h = (l.filter (fun x => p (g x))).map (fun x => h (g x)) := by
  subst hm
  rw [List.filter_map, List.map_map]
  rfl

theorem filter_length_comp {β : Type} (g : α → β) (l : List α) (m : List β) (hm : l.map g = m)
    (p : β → Bool) :
    (m.filter p).length = (l.filter (fun x => p (g x))).length := by
  subst hm
  rw [List.filter_map, List.length_map]
  rfl

/-! ## Lemmas about the enrollment generator's retry loop -/

theorem searchFresh_not_mem (pick : Nat → String × String) (used : List (String × String)) :
    ∀ (fuel a : Nat) (p : String × String),
      searchFresh pick used a fuel = some p → p ∉ used := by
  intro fuel
  induction fuel with
  | zero => intro a p h; simp [searchFresh] at h
  | succ f ih =>
    intro a p h
    by_cases hm : pick a ∈ used
    · exact ih (a + 1) p (by simpa [searchFresh, hm] using h)
    · have : p = pick a := by simpa [searchFresh, hm] using h.symm
      rw [this]; exact hm

theorem buildEnrollAux_spec (gen : EnrollGen) :
    ∀ (n idx : Nat) (used : List (String × String)),
      ((buildEnrollAux gen idx n used).map (fun e => (e.studentId, e.courseId))).Nodup ∧
      (∀ q ∈ (buildEnrollAux gen idx n used).map (fun e => (e.studentId, e.courseId)),
        q ∉ used) ∧
      (buildEnrollAux gen idx n used).length ≤ n := by
  intro n
  induction n with
  | zero => intro idx used; simp [buildEnrollAux]
  | succ n ih =>
    intro idx used
    cases hs : searchFresh (gen.pair idx) used 0 50 with
    | none =>
      have ⟨hnd, hnotin, hlen⟩ := ih (idx + 1) used
      exact ⟨by simpa [buildEnrollAux, hs] using hnd,
        by simpa [buildEnrollAux, hs] using hnotin,
        by simp only [buildEnrollAux, hs]; omega⟩
    | some p =>
      have ⟨hnd, hnotin, hlen⟩ := ih (idx + 1) (p :: used)
      have hp : p ∉ used := searchFresh_not_mem (gen.pair idx) used 50 0 p hs
      refine ⟨?_, ?_, ?_⟩
      · simp only [buildEnrollAux, hs, List.map_cons]
        refine List.nodup_cons.mpr ⟨?_, hnd⟩
        intro hmem
        exact (hnotin _ hmem) (List.mem_cons_self p used)
      · simp only [buildEnrollAux, hs, List.map_cons]
        intro q hq
        rcases List.mem_cons.mp hq with rfl | hq'
        · exact hp
        · exact fun hqu => (hnotin q hq') (List.mem_cons_of_mem p hqu)
      · simp only [buildEnrollAux, hs, List.length_cons]; omega

/-- C6: for every requested enrollment count, the generated
(studentId, courseId) pairs are pairwise distinct, and a slot whose
uniqueness search fails is skipped rather than emitted, so at most
`n` records are produced. -/
theorem claim_C6_enrollment_pairs_distinct (gen : EnrollGen) (n : Nat) :
    ((buildEnrollmentRecords gen n).map (fun e => (e.studentId, e.courseId))).Pairwise (· ≠ ·) ∧
    (buildEnrollmentRecords gen n).length ≤ n :=
  ⟨(buildEnrollAux_spec gen n 0 []).1, (buildEnrollAux_spec gen n 0 []).2.2⟩

/-- C5: when an enrollment with the same (studentId, courseId) pair
already exists, `register_student_for_course` declines as a no-op: it
returns the null sentinel, leaves the collection unchanged, and the
enrollment count of the pair is preserved. -/
theorem claim_C5_reregister_noop (enrollments : List Enrollment) (sid cid : String)
    (h : ∃ e ∈ enrollments, e.studentId = sid ∧ e.courseId = cid) :
    registerStudentForCourse enrollments sid cid = (none, enrollments) ∧
    ((registerStudentForCourse enrollments sid cid).2.filter
        (fun e => e.studentId = sid ∧ e.courseId = cid)).length
      = (enrollments.filter (fun e => e.studentId = sid ∧ e.courseId = cid)).length := by
  have hres : registerStudentForCourse enrollments sid cid = (none, enrollments) := by
    unfold registerStudentForCourse
    split
    · rfl
    · next hcond =>
        exfalso
        rcases h with ⟨e, he, h1, h2⟩
        exact hcond (List.any_eq_true.mpr ⟨e, he, by simp [h1, h2]⟩)
  exact ⟨hres, by rw [hres]⟩

theorem claim_C5_witness :
    (∃ e ∈ [mkEnrollment "ENROLL_001" "STU_001" "COURSE_001"],
      e.studentId = "STU_001" ∧ e.courseId = "COURSE_001") ∧
    registerStudentForCourse [mkEnrollment "ENROLL_001" "STU_001" "COURSE_001"]
        "STU_001" "COURSE_001"
      = (none, [mkEnrollment "ENROLL_001" "STU_001" "COURSE_001"]) ∧
    (([mkEnrollment "ENROLL_001" "STU_001" "COURSE_001"].filter
        (fun e => e.studentId = "STU_001" ∧ e.courseId = "COURSE_001")).length = 1) :=
  ⟨by decide,
   (claim_C5_reregister_noop _ "STU_001" "COURSE_001" (by decide)).1,
   by decide⟩

/-- C8 counterexample: requesting 9 course records yields only 8, so a
builder does not always produce exactly N records. -/
theorem claim_C8_counterexample :
    (buildCourseRecords zeroCourseGen 9).length = 8 ∧ (8 : Nat) ≠ 9 := by
  refine ⟨?_, by decide⟩
  simp [buildCourseRecords, courseTitles]

/-- C8 as amended: the user builder always returns exactly N records,
while the course builder returns `min N 8` records because its output
is capped by the fixed 8-element title pool. -/
theorem claim_C8_amended_builder_counts (ugen : UserGen) (cgen : CourseGen) (n : Nat) :
    (buildUserRecords ugen n).length = n ∧
    (buildCourseRecords cgen n).length = min n courseTitles.length ∧
    courseTitles.length = 8 := by
  refine ⟨?_, ?_, rfl⟩
  · simp only [buildUserRecords, List.length_append, List.length_map, List.length_range]
    omega
  · simp [buildCourseRecords]

/-! ## Lemmas about `update_one` and `$addToSet` -/

theorem updateOne_frame {α : Type} [DecidableEq α] (p : α → Bool) (f : α → α) :
    ∀ (pre : List α) (u : α) (post : List α),
      (∀ v ∈ pre, p v = false) → p u = true →
      (updateOne p f (pre ++ u :: post)).2 = pre ++ f u :: post := by
  intro pre
  induction pre with
  | nil => intro u post _ hu; simp [updateOne, hu]
  | cons x xs ih =>
    intro u post hpre hu
    have hx : p x = false := hpre x (List.mem_cons_self x xs)
    simp only [List.cons_append, updateOne, hx, Bool.false_eq_true, if_false, List.append_eq]
    rw [ih u post (fun v hv => hpre v (List.mem_cons_of_mem x hv)) hu]

theorem addToSetEach_mem :
    ∀ (extra old : List String) (t : String),
      t ∈ addToSetEach old extra ↔ t ∈ old ∨ t ∈ extra := by
  intro extra
  induction extra with
  | nil => intro old t; simp [addToSetEach]
  | cons x xs ih =>
    intro old t
    have hstep : addToSetEach old (x :: xs)
        = addToSetEach (if x ∈ old then old else old ++ [x]) xs := by
      simp [addToSetEach, List.foldl_cons]
    rw [hstep, ih]
    by_cases hx : x ∈ old
    · simp only [if_pos hx, List.mem_cons]
      constructor
      · rintro (h | h)
        · exact Or.inl h
        · exact Or.inr (Or.inr h)
      · rintro (h | h | h)
        · exact Or.inl h
        · exact Or.inl (h ▸ hx)
        · exact Or.inr h
    · simp only [if_neg hx, List.mem_append, List.mem_singleton, List.mem_cons]
      tauto

theorem addToSetEach_nodup :
    ∀ (extra old : List String), old.Nodup → (addToSetEach old extra).Nodup := by
  intro extra
  induction extra with
  | nil => intro old h; simpa [addToSetEach] using h
  | cons x xs ih =>
    intro old hold
    have hstep : addToSetEach old (x :: xs)
        = addToSetEach (if x ∈ old then old else old ++ [x]) xs := by
      simp [addToSetEach, List.foldl_cons]
    rw [hstep]
    by_cases hx : x ∈ old
    · simpa [hx] using ih old hold
    · refine ih _ ?_
      rw [if_neg hx]
      simp [List.nodup_append, hold, hx]

theorem addToSetEach_subset_eq :
    ∀ (extra old : List String), (∀ t ∈ extra, t ∈ old) → addToSetEach old extra = old := by
  intro extra
  induction extra with
  | nil => intro old _; simp [addToSetEach]
  | cons x xs ih =>
    intro old hsub
    have hx : x ∈ old := hsub x (List.mem_cons_self x xs)
    have hstep : addToSetEach old (x :: xs)
        = addToSetEach (if x ∈ old then old else old ++ [x]) xs := by
      simp [addToSetEach, List.foldl_cons]
    rw [hstep, if_pos hx]
    exact ih old (fun t ht => hsub t (List.mem_cons_of_mem x ht))

/-- C9 counterexample: on a course whose stored tags already contain a
duplicate, the add-tags operation leaves the duplicate in place, so the
resulting tags field is not duplicate-free. -/
theorem claim_C9_counterexample :
    ((addTagsToCourse [dupTagCourse] "COURSE_001" ["frontend"] 5).2.map
        (fun c => c.tags)) = [["web", "web", "frontend"]] ∧
    ¬ (∀ c' ∈ (addTagsToCourse [dupTagCourse] "COURSE_001" ["frontend"] 5).2,
        c'.tags.Nodup) := by
  constructor
  · decide
  · decide

/-- C9 as amended: the add-tags operation replaces the matched course's
tags by the `$addToSet` union and stamps `updatedAt`; as a set the new
tags are exactly the union of old and added tags, no new duplicate is
introduced (so the result is duplicate-free whenever the stored tags
were), and adding only already-present tags leaves the tags unchanged. -/
theorem claim_C9_amended_add_tags (courses pre post : List Course) (c : Course)
    (cid : String) (tags : List String) (now : Nat)
    (hsplit : courses = pre ++ c :: post) (hcid : c.courseId = cid)
    (hpre : ∀ v ∈ pre, v.courseId ≠ cid) :
    (addTagsToCourse courses cid tags now).2
      = pre ++ { c with tags := addToSetEach c.tags tags, updatedAt := now } :: post ∧
    (∀ t, t ∈ addToSetEach c.tags tags ↔ t ∈ c.tags ∨ t ∈ tags) ∧
    (c.tags.Nodup → (addToSetEach c.tags tags).Nodup) ∧
    ((∀ t ∈ tags, t ∈ c.tags) → addToSetEach c.tags tags = c.tags) := by
  refine ⟨?_, fun t => addToSetEach_mem tags c.tags t,
    fun h => addToSetEach_nodup tags c.tags h, fun h => addToSetEach_subset_eq tags c.tags h⟩
  subst hsplit
  exact updateOne_frame _ _ pre c post
    (fun v hv => by simpa using hpre v hv) (by simp [hcid])

theorem claim_C9_witness :
    ([mkCourse "COURSE_001" "Programming" 150] =
      ([] : List Course) ++ mkCourse "COURSE_001" "Programming" 150 :: []) ∧
    (mkCourse "COURSE_001" "Programming" 150).courseId = "COURSE_001" ∧
    (mkCourse "COURSE_001" "Programming" 150).tags.Nodup ∧
    (addTagsToCourse [mkCourse "COURSE_001" "Programming" 150] "COURSE_001"
        ["python", "data"] 9).2
      = [] ++ { mkCourse "COURSE_001" "Programming" 150 with
          tags := addToSetEach (mkCourse "COURSE_001" "Programming" 150).tags
            ["python", "data"],
          updatedAt := 9 } :: [] ∧
    (addToSetEach (mkCourse "COURSE_001" "Programming" 150).tags ["python", "data"]).Nodup :=
  ⟨rfl, rfl, by decide,
   (claim_C9_amended_add_tags _ [] [] _ "COURSE_001" ["python", "data"] 9 rfl rfl
      (by intro v hv; cases hv)).1,
   (claim_C9_amended_add_tags [mkCourse "COURSE_001" "Programming" 150] [] [] _
      "COURSE_001" ["python", "data"] 9 rfl rfl (by intro v hv; cases hv)).2.2.1 (by decide)⟩

/-- C10: with no optional field supplied, `update_user_profile` returns
0 and issues no write (the collection is unchanged); with fields
supplied, only the supplied `profile` subfields of the matched user
change — the rest of that document and every other document are kept. -/
theorem claim_C10_update_profile_frame (users : List UserDoc) (uid : String) :
    updateUserProfile users uid none none none = (0, users) ∧
    (∀ (pre : List UserDoc) (u : UserDoc) (post : List UserDoc)
        (nb : Option String) (ns : Option (List String)) (na : Option String),
      users = pre ++ u :: post → u.userId = uid → (∀ v ∈ pre, v.userId ≠ uid) →
      ¬(nb = none ∧ ns = none ∧ na = none) →
      (updateUserProfile users uid nb ns na).2
        = pre ++ { u with profile :=
            { bio := nb.getD u.profile.bio
              skills := ns.getD u.profile.skills
              avatar := na.getD u.profile.avatar } } :: post) := by
  constructor
  · simp [updateUserProfile]
  · intro pre u post nb ns na hsplit hu hpre hsome
    subst hsplit
    simp only [updateUserProfile, if_neg hsome]
    exact updateOne_frame _ _ pre u post
      (fun v hv => by simpa using hpre v hv) (by simp [hu])

theorem claim_C10_witness :
    ([mkStudent "STU_001"] = ([] : List UserDoc) ++ mkStudent "STU_001" :: []) ∧
    (mkStudent "STU_001").userId = "STU_001" ∧
    updateUserProfile [mkStudent "STU_001"] "STU_001" none none none
      = (0, [mkStudent "STU_001"]) ∧
    (updateUserProfile [mkStudent "STU_001"] "STU_001" (some "new bio") none none).2
      = [] ++ { mkStudent "STU_001" with profile :=
          { bio := "new bio"
            skills := (mkStudent "STU_001").profile.skills
            avatar := (mkStudent "STU_001").profile.avatar } } :: [] :=
  ⟨rfl, rfl,
   (claim_C10_update_profile_frame [mkStudent "STU_001"] "STU_001").1,
   (claim_C10_update_profile_frame [mkStudent "STU_001"] "STU_001").2
     [] (mkStudent "STU_001") [] (some "new bio") none none rfl rfl
     (by intro v hv; cases hv) (by simp)⟩

/-! ## Lemmas for the category-statistics pipeline -/

theorem sum_map_one (l : List α) : (l.map (fun _ => 1)).sum = l.length := by
  induction l with
  | nil => rfl
  | cons x xs ih => simp [ih]; omega

theorem avgOpt_map_some (l : List ℚ) (hne : l ≠ []) :
    avgOpt (l.map some) = some (l.sum / (l.length : ℚ)) := by
  have hid : (l.map some).filterMap id = l := by
    induction l with
    | nil => rfl
    | cons x xs ih => simp_all [List.filterMap_cons]
  have hlen : l.length ≠ 0 := fun h => hne (List.length_eq_zero.mp h)
  simp [avgOpt, hid, hlen]

/-- C3: every bucket of the course-enrollment-statistics aggregate
reports the category's course count, the sum of the per-course
enrollment counts, the average course price and the pushed array of
per-course projections, and the buckets come out sorted by
`totalEnrollments` descending. -/
theorem claim_C3_category_statistics (courses : List Course) (enrollments : List Enrollment) :
    (∀ b ∈ courseEnrollmentStatistics courses enrollments,
      b.totalCourses = (courses.filter (fun c => c.category = b.category)).length ∧
      b.totalEnrollments = ((courses.filter (fun c => c.category = b.category)).map
          (fun c => (enrollments.filter (fun e => e.courseId = c.courseId)).length)).sum ∧
      b.averagePrice = some
        (((courses.filter (fun c => c.category = b.category)).map (fun c => c.price)).sum
          / ((courses.filter (fun c => c.category = b.category)).length : ℚ)) ∧
      b.courses = (courses.filter (fun c => c.category = b.category)).map
          (fun c => ⟨c.courseId, c.title,
            (enrollments.filter (fun e => e.courseId = c.courseId)).length, c.price⟩)) ∧
    (courseEnrollmentStatistics courses enrollments).Sorted
      (fun a b => b.totalEnrollments ≤ a.totalEnrollments) := by
  constructor
  · intro b hb
    simp only [courseEnrollmentStatistics] at hb
    rw [(sortByDesc_perm _ _).mem_iff] at hb
    rcases List.mem_map.mp hb with ⟨k, hk, rfl⟩
    have hex : ∃ c ∈ courses, c.category = k := by
      rcases List.mem_map.mp (List.mem_dedup.mp hk) with ⟨t, ht, rfl⟩
      rcases List.mem_map.mp ht with ⟨c, hc, rfl⟩
      exact ⟨c, hc, rfl⟩
    have hfne : courses.filter (fun c => c.category = k) ≠ [] := by
      rcases hex with ⟨c, hc, hcat⟩
      exact List.ne_nil_of_mem (List.mem_filter.mpr ⟨hc, by simp [hcat]⟩)
    refine ⟨?_, ?_, ?_, ?_⟩
    · exact filter_length_comp
        (fun c => (c, enrollments.filter (fun e => e.courseId = c.courseId))) courses _ rfl
        (fun t => t.1.category = k)
    · exact congrArg List.sum (filter_map_comp
        (fun c => (c, enrollments.filter (fun e => e.courseId = c.courseId))) courses _ rfl
        (fun t => t.1.category = k) (fun t => t.2.length))
    · have hmap : ((courses.map
            (fun c => (c, enrollments.filter (fun e => e.courseId = c.courseId)))).filter
              (fun t => t.1.category = k)).map (fun t => some t.1.price)
          = ((courses.filter (fun c => c.category = k)).map (fun c => c.price)).map some := by
        rw [filter_map_comp
          (fun c => (c, enrollments.filter (fun e => e.courseId = c.courseId))) courses _ rfl
          (fun t => t.1.category = k) (fun t => some t.1.price), List.map_map]
        rfl
      show avgOpt _ = _
      rw [hmap, avgOpt_map_some _ (by simpa using hfne)]
      rw [List.length_map]
      rfl
    · exact filter_map_comp
        (fun c => (c, enrollments.filter (fun e => e.courseId = c.courseId))) courses _ rfl
        (fun t => t.1.category = k)
        (fun t => (⟨t.1.courseId, t.1.title, t.2.length, t.1.price⟩ : CourseStat))
  · simp only [courseEnrollmentStatistics]
    exact (sortByDesc_sorted (fun b : CategoryStats => b.totalEnrollments) _).imp
      (fun h => h)

theorem claim_C3_witness :
    mkCourse "COURSE_001" "Programming" 150 ∈
      [mkCourse "COURSE_001" "Programming" 150] ∧
    categoryBucket
        [(mkCourse "COURSE_001" "Programming" 150,
          [mkEnrollment "ENROLL_001" "STU_001" "COURSE_001"])] (some "Programming") ∈
      courseEnrollmentStatistics [mkCourse "COURSE_001" "Programming" 150]
        [mkEnrollment "ENROLL_001" "STU_001" "COURSE_001"] ∧
    (categoryBucket
        [(mkCourse "COURSE_001" "Programming" 150,
          [mkEnrollment "ENROLL_001" "STU_001" "COURSE_001"])]
        (some "Programming")).totalCourses = 1 ∧
    (categoryBucket
        [(mkCourse "COURSE_001" "Programming" 150,
          [mkEnrollment "ENROLL_001" "STU_001" "COURSE_001"])]
        (some "Programming")).totalEnrollments = 1 := by
  have hmem : categoryBucket
      [(mkCourse "COURSE_001" "Programming" 150,
        [mkEnrollment "ENROLL_001" "STU_001" "COURSE_001"])] (some "Programming") ∈
      courseEnrollmentStatistics [mkCourse "COURSE_001" "Programming" 150]
        [mkEnrollment "ENROLL_001" "STU_001" "COURSE_001"] := by
    rw [show courseEnrollmentStatistics [mkCourse "COURSE_001" "Programming" 150]
        [mkEnrollment "ENROLL_001" "STU_001" "COURSE_001"]
      = [categoryBucket
          [(mkCourse "COURSE_001" "Programming" 150,
            [mkEnrollment "ENROLL_001" "STU_001" "COURSE_001"])] (some "Programming")]
      from rfl]
    exact List.mem_singleton_self _
  refine ⟨by decide, hmem, ?_, ?_⟩
  · exact ((claim_C3_category_statistics [mkCourse "COURSE_001" "Programming" 150]
      [mkEnrollment "ENROLL_001" "STU_001" "COURSE_001"]).1 _ hmem).1.trans (by decide)
  · exact ((claim_C3_category_statistics [mkCourse "COURSE_001" "Programming" 150]
      [mkEnrollment "ENROLL_001" "STU_001" "COURSE_001"]).1 _ hmem).2.1.trans (by decide)

/-- C4: assuming each enrollment references an existing course (with
`courseId` unique across courses, as the unique index guarantees) and
every course carries a category, the per-category `totalEnrollments`
of the course-enrollment-statistics aggregate sum to the total number
of enrollment documents. -/
theorem claim_C4_enrollment_conservation (courses : List Course) (enrollments : List Enrollment)
    (hnd : (courses.map (fun c => c.courseId)).Nodup)
    (href : ∀ e ∈ enrollments, ∃ c ∈ courses, c.courseId = e.courseId)
    (hcat : ∀ c ∈ courses, c.category ≠ none) :
    ((courseEnrollmentStatistics courses enrollments).map
        (fun b => b.totalEnrollments)).sum = enrollments.length := by
  simp only [courseEnrollmentStatistics]
  have h1 : (List.map (fun b : CategoryStats => b.totalEnrollments)
        (sortByDesc (fun b => b.totalEnrollments)
          ((((courses.map (fun c =>
              (c, enrollments.filter (fun e => e.courseId = c.courseId)))).map
            (fun t => t.1.category)).dedup).map
            (categoryBucket (courses.map (fun c =>
              (c, enrollments.filter (fun e => e.courseId = c.courseId)))))))).sum
      = (List.map (fun b : CategoryStats => b.totalEnrollments)
          ((((courses.map (fun c =>
              (c, enrollments.filter (fun e => e.courseId = c.courseId)))).map
            (fun t => t.1.category)).dedup).map
            (categoryBucket (courses.map (fun c =>
              (c, enrollments.filter (fun e => e.courseId = c.courseId))))))).sum :=
    List.Perm.sum_eq (List.Perm.map _ (sortByDesc_perm _ _))
  rw [h1, List.map_map]
  have h2 : ((fun b : CategoryStats => b.totalEnrollments) ∘
      categoryBucket (courses.map (fun c =>
        (c, enrollments.filter (fun e => e.courseId = c.courseId)))))
      = fun k => (((courses.map (fun c =>
          (c, enrollments.filter (fun e => e.courseId = c.courseId)))).filter
            (fun t => t.1.category = k)).map (fun t => t.2.length)).sum := rfl
  rw [h2]
  rw [sum_over_groups (fun t : Course × List Enrollment => t.1.category)
    (fun t => t.2.length)
    (courses.map (fun c => (c, enrollments.filter (fun e => e.courseId = c.courseId))))
    (((courses.map (fun c =>
        (c, enrollments.filter (fun e => e.courseId = c.courseId)))).map
      (fun t => t.1.category)).dedup)
    (List.nodup_dedup _)
    (fun t ht => List.mem_dedup.mpr (List.mem_map_of_mem _ ht))]
  rw [List.map_map]
  have h3 : ((fun t : Course × List Enrollment => t.2.length) ∘
      (fun c => (c, enrollments.filter (fun e => e.courseId = c.courseId))))
      = fun c => (enrollments.filter (fun e => e.courseId = c.courseId)).length := rfl
  rw [h3]
  rw [sum_count_swap (fun c e => e.courseId = c.courseId) enrollments courses]
  have hone : ∀ e ∈ enrollments,
      (courses.filter (fun c => e.courseId = c.courseId)).length = 1 := by
    intro e he
    rw [List.filter_congr
      (fun c _ => decide_eq_decide.mpr (⟨fun h => h.symm, fun h => h.symm⟩ :
        e.courseId = c.courseId ↔ c.courseId = e.courseId))]
    exact filter_key_length_one (fun c => c.courseId) e.courseId courses hnd (href e he)
  rw [List.map_congr_left (fun e he => hone e he)]
  exact sum_map_one enrollments

/-- C1: in the student-performance analysis (with submissions
referencing existing assignments and students, whose ids are unique as
the indexes guarantee), every bucket's `averageGrade` is the arithmetic
mean of only the non-null grades of that student's submissions — null
(not zero, not an error) when every grade is null — while
`totalSubmissions` counts all of that student's submissions including
the ungraded ones. -/
theorem claim_C1_average_grade (submissions : List Submission)
    (assignments : List Assignment) (users : List UserDoc)
    (hand : (assignments.map (fun a => a.assignmentId)).Nodup)
    (hund : (users.map (fun u => u.userId)).Nodup)
    (haref : ∀ s ∈ submissions, ∃ a ∈ assignments, a.assignmentId = s.assignmentId)
    (huref : ∀ s ∈ submissions, ∃ u ∈ users, u.userId = s.studentId) :
    ∀ b ∈ studentPerformanceAnalysis submissions assignments users,
      b.totalSubmissions = (submissions.filter (fun s => s.studentId = b.studentId)).length ∧
      b.averageGrade =
        (if ((submissions.filter (fun s => s.studentId = b.studentId)).filterMap
              (fun s => s.grade)).length = 0 then none
         else some (((submissions.filter (fun s => s.studentId = b.studentId)).filterMap
              (fun s => s.grade)).sum
            / (((submissions.filter (fun s => s.studentId = b.studentId)).filterMap
              (fun s => s.grade)).length : ℚ))) := by
  intro b hb
  simp only [studentPerformanceAnalysis] at hb
  rw [(sortByDesc_perm _ _).mem_iff] at hb
  rcases List.mem_map.mp hb with ⟨k, hk, rfl⟩
  have h1 : (lookupUnwind (fun s : Submission => s.assignmentId)
        (fun a : Assignment => a.assignmentId) assignments submissions).map Prod.fst
      = submissions :=
    lookupUnwind_map_fst _ _ assignments hand submissions haref
  have h2 : (lookupUnwind
        (fun t : Submission × Assignment => t.1.studentId)
        (fun u : UserDoc => u.userId) users
        (lookupUnwind (fun s : Submission => s.assignmentId)
          (fun a : Assignment => a.assignmentId) assignments submissions)).map Prod.fst
      = lookupUnwind (fun s : Submission => s.assignmentId)
          (fun a : Assignment => a.assignmentId) assignments submissions := by
    refine lookupUnwind_map_fst _ _ users hund _ ?_
    intro t ht
    have hmem : t.1 ∈ submissions := by
      rw [← h1]
      exact List.mem_map_of_mem Prod.fst ht
    exact huref t.1 hmem
  have h12 : (lookupUnwind
        (fun t : Submission × Assignment => t.1.studentId)
        (fun u : UserDoc => u.userId) users
        (lookupUnwind (fun s : Submission => s.assignmentId)
          (fun a : Assignment => a.assignmentId) assignments submissions)).map
        (fun t => t.1.1)
      = submissions := by
    calc (lookupUnwind (fun t : Submission × Assignment => t.1.studentId)
          (fun u : UserDoc => u.userId) users
          (lookupUnwind (fun s : Submission => s.assignmentId)
            (fun a : Assignment => a.assignmentId) assignments submissions)).map
          (fun t => t.1.1)
        = ((lookupUnwind (fun t : Submission × Assignment => t.1.studentId)
            (fun u : UserDoc => u.userId) users
            (lookupUnwind (fun s : Submission => s.assignmentId)
              (fun a : Assignment => a.assignmentId) assignments submissions)).map
            Prod.fst).map Prod.fst := by rw [List.map_map]; rfl
      _ = (lookupUnwind (fun s : Submission => s.assignmentId)
            (fun a : Assignment => a.assignmentId) assignments submissions).map Prod.fst := by
            rw [h2]
      _ = submissions := h1
  constructor
  · exact (filter_length_comp (fun t : (Submission × Assignment) × UserDoc => t.1.1) _
      submissions h12 (fun s => s.studentId = k)).symm
  · have hg : ((lookupUnwind
          (fun t : Submission × Assignment => t.1.studentId)
          (fun u : UserDoc => u.userId) users
          (lookupUnwind (fun s : Submission => s.assignmentId)
            (fun a : Assignment => a.assignmentId) assignments submissions)).filter
            (fun t => t.1.1.studentId = k)).map (fun t => t.1.1.grade)
        = (submissions.filter (fun s => s.studentId = k)).map (fun s => s.grade) :=
      (filter_map_comp (fun t : (Submission × Assignment) × UserDoc => t.1.1) _
        submissions h12 (fun s => s.studentId = k) (fun s => s.grade)).symm
    show avgOpt _ = _
    rw [hg]
    have hfm : ((submissions.filter (fun s => s.studentId = k)).map
          (fun s => s.grade)).filterMap id
        = (submissions.filter (fun s => s.studentId = k)).filterMap (fun s => s.grade) := by
      rw [List.filterMap_map]
      rfl
    simp only [avgOpt, hfm]
    rfl

theorem claim_C1_witness :
    ((oneAssign.map (fun a => a.assignmentId)).Nodup) ∧
    (([mkStudent "STU_001"].map (fun u => u.userId)).Nodup) ∧
    (∀ s ∈ subs85, ∃ a ∈ oneAssign, a.assignmentId = s.assignmentId) ∧
    (∀ s ∈ subs85, ∃ u ∈ [mkStudent "STU_001"], u.userId = s.studentId) ∧
    (perfBucket (perfRows subs85 oneAssign [mkStudent "STU_001"]) "STU_001").totalSubmissions
      = 3 ∧
    (perfBucket (perfRows subs85 oneAssign [mkStudent "STU_001"]) "STU_001").averageGrade
      = some 85 ∧
    (perfBucket (perfRows subsNoGrade oneAssign [mkStudent "STU_002"]) "STU_002").averageGrade
      = none := by
  have hmem1 : perfBucket (perfRows subs85 oneAssign [mkStudent "STU_001"]) "STU_001" ∈
      studentPerformanceAnalysis subs85 oneAssign [mkStudent "STU_001"] := by
    rw [show studentPerformanceAnalysis subs85 oneAssign [mkStudent "STU_001"]
        = [perfBucket (perfRows subs85 oneAssign [mkStudent "STU_001"]) "STU_001"] from rfl]
    exact List.mem_singleton_self _
  have hmem2 : perfBucket (perfRows subsNoGrade oneAssign [mkStudent "STU_002"]) "STU_002" ∈
      studentPerformanceAnalysis subsNoGrade oneAssign [mkStudent "STU_002"] := by
    rw [show studentPerformanceAnalysis subsNoGrade oneAssign [mkStudent "STU_002"]
        = [perfBucket (perfRows subsNoGrade oneAssign [mkStudent "STU_002"]) "STU_002"]
        from rfl]
    exact List.mem_singleton_self _
  refine ⟨by decide, by decide, by decide, by decide, ?_, ?_, ?_⟩
  · exact ((claim_C1_average_grade subs85 oneAssign [mkStudent "STU_001"]
      (by decide) (by decide) (by decide) (by decide) _ hmem1).1).trans (by decide)
  · refine ((claim_C1_average_grade subs85 oneAssign [mkStudent "STU_001"]
      (by decide) (by decide) (by decide) (by decide) _ hmem1).2).trans ?_
    rw [show (perfBucket (perfRows subs85 oneAssign [mkStudent "STU_001"])
        "STU_001").studentId = "STU_001" from rfl]
    rw [show (subs85.filter (fun s => s.studentId = "STU_001")).filterMap
        (fun s => s.grade) = [(80 : ℚ), 90] from rfl]
    norm_num
  · refine ((claim_C1_average_grade subsNoGrade oneAssign [mkStudent "STU_002"]
      (by decide) (by decide) (by decide) (by decide) _ hmem2).2).trans ?_
    rw [show (perfBucket (perfRows subsNoGrade oneAssign [mkStudent "STU_002"])
        "STU_002").studentId = "STU_002" from rfl]
    rw [show (subsNoGrade.filter (fun s => s.studentId = "STU_002")).filterMap
        (fun s => s.grade) = ([] : List ℚ) from rfl]
    simp

/-- C2: in the instructor analytics (with courses referencing existing
instructor users, whose ids are unique as the index guarantees), every
bucket's `totalRevenue` is the sum over that instructor's courses of
price times the course's enrollment count, and the buckets come out
sorted by `totalRevenue` descending. -/
theorem claim_C2_instructor_revenue (courses : List Course) (enrollments : List Enrollment)
    (users : List UserDoc)
    (hund : (users.map (fun u => u.userId)).Nodup)
    (huref : ∀ c ∈ courses, ∃ u ∈ users, u.userId = c.instructorId) :
    (∀ b ∈ instructorAnalytics courses enrollments users,
      b.totalRevenue = ((courses.filter (fun c => c.instructorId = b.instructorId)).map
          (fun c => c.price
            * ((enrollments.filter (fun e => e.courseId = c.courseId)).length : ℚ))).sum) ∧
    (instructorAnalytics courses enrollments users).Sorted
      (fun a b => b.totalRevenue ≤ a.totalRevenue) := by
  have h1 : (lookupUnwind (fun c : Course => c.instructorId)
        (fun u : UserDoc => u.userId) users courses).map Prod.fst = courses :=
    lookupUnwind_map_fst _ _ users hund courses huref
  constructor
  · intro b hb
    simp only [instructorAnalytics] at hb
    rw [(sortByDesc_perm _ _).mem_iff] at hb
    rcases List.mem_map.mp hb with ⟨k, hk, rfl⟩
    have e1 := filter_map_comp
      (fun t : Course × UserDoc =>
        (t, enrollments.filter (fun e => e.courseId = t.1.courseId)))
      (lookupUnwind (fun c : Course => c.instructorId)
        (fun u : UserDoc => u.userId) users courses) _ rfl
      (fun t : (Course × UserDoc) × List Enrollment => t.1.1.instructorId = k)
      (fun t : (Course × UserDoc) × List Enrollment =>
        t.1.1.price * (t.2.length : ℚ))
    have e2 := filter_map_comp (Prod.fst : Course × UserDoc → Course)
      (lookupUnwind (fun c : Course => c.instructorId)
        (fun u : UserDoc => u.userId) users courses) courses h1
      (fun c : Course => c.instructorId = k)
      (fun c : Course => c.price
        * ((enrollments.filter (fun e => e.courseId = c.courseId)).length : ℚ))
    exact congrArg List.sum (e1.trans e2.symm)
  · simp only [instructorAnalytics]
    exact (sortByDesc_sorted (fun b : InstructorStats => b.totalRevenue) _).imp
      (fun h => h)

theorem claim_C2_witness :
    (([mkInstructor "INST_001"].map (fun u => u.userId)).Nodup) ∧
    (∀ c ∈ [mkCourse "COURSE_001" "Programming" 150],
      ∃ u ∈ [mkInstructor "INST_001"], u.userId = c.instructorId) ∧
    (instrBucket (instrRows [mkCourse "COURSE_001" "Programming" 150]
        twoEnrollsOneCourse [mkInstructor "INST_001"]) "INST_001").totalRevenue = 300 := by
  have hmem : instrBucket (instrRows [mkCourse "COURSE_001" "Programming" 150]
      twoEnrollsOneCourse [mkInstructor "INST_001"]) "INST_001" ∈
      instructorAnalytics [mkCourse "COURSE_001" "Programming" 150]
        twoEnrollsOneCourse [mkInstructor "INST_001"] := by
    rw [show instructorAnalytics [mkCourse "COURSE_001" "Programming" 150]
        twoEnrollsOneCourse [mkInstructor "INST_001"]
      = [instrBucket (instrRows [mkCourse "COURSE_001" "Programming" 150]
          twoEnrollsOneCourse [mkInstructor "INST_001"]) "INST_001"] from rfl]
    exact List.mem_singleton_self _
  refine ⟨by decide, by decide, ?_⟩
  refine (((claim_C2_instructor_revenue [mkCourse "COURSE_001" "Programming" 150]
      twoEnrollsOneCourse [mkInstructor "INST_001"] (by decide) (by decide)).1)
      _ hmem).trans ?_
  rw [show (instrBucket (instrRows [mkCourse "COURSE_001" "Programming" 150]
      twoEnrollsOneCourse [mkInstructor "INST_001"]) "INST_001").instructorId
    = "INST_001" from rfl]
  rw [show List.filter (fun c => c.instructorId = "INST_001")
      [mkCourse "COURSE_001" "Programming" 150]
    = [mkCourse "COURSE_001" "Programming" 150] from rfl]
  simp only [List.map_cons, List.map_nil, List.sum_cons, List.sum_nil]
  rw [show List.filter
      (fun e => e.courseId = (mkCourse "COURSE_001" "Programming" 150).courseId)
      twoEnrollsOneCourse = twoEnrollsOneCourse from rfl]
  rw [show twoEnrollsOneCourse.length = 2 from rfl]
  norm_num [mkCourse]

/-! ## Display-id order lemmas

The create operations read the lexicographically largest display id and
parse its numeric suffix.  On zero-padded 3-digit suffixes (1..999) the
lexicographic order agrees with the numeric order of the suffixes; the
lemmas below establish that bridge. -/

theorem zfill_repr : ∀ n, n < 1000 → zfill 3 (Nat.repr n).data
    = [Nat.digitChar (n / 100), Nat.digitChar (n / 10 % 10), Nat.digitChar (n % 10)] := by
  decide

theorem digitChar_lt_iff : ∀ d, d < 10 → ∀ e, e < 10 →
    (Nat.digitChar d < Nat.digitChar e ↔ d < e) := by
  decide

theorem digitChar_inj_iff : ∀ d, d < 10 → ∀ e, e < 10 →
    (Nat.digitChar d = Nat.digitChar e ↔ d = e) := by
  decide

theorem lexLt_append_same : ∀ (p a b : List Char), lexLt (p ++ a) (p ++ b) = lexLt a b := by
  intro p
  induction p with
  | nil => intro a b; rfl
  | cons c cs ih =>
    intro a b
    simp only [List.cons_append, lexLt, lt_irrefl c, if_false]
    exact ih a b

theorem lexLt_triple (a₁ a₂ a₃ b₁ b₂ b₃ : Char) :
    lexLt [a₁, a₂, a₃] [b₁, b₂, b₃] = true ↔
      (a₁ < b₁ ∨ (a₁ = b₁ ∧ (a₂ < b₂ ∨ (a₂ = b₂ ∧ a₃ < b₃)))) := by
  by_cases h₁ : a₁ < b₁
  · simp [lexLt, h₁]
  · by_cases h₁' : b₁ < a₁
    · have hne : ¬ a₁ = b₁ := fun he => absurd (he ▸ h₁') (lt_irrefl _)
      simp [lexLt, h₁, h₁', hne]
    · have he₁ : a₁ = b₁ := le_antisymm (not_lt.mp h₁') (not_lt.mp h₁)
      by_cases h₂ : a₂ < b₂
      · simp [lexLt, h₁, h₁', he₁, h₂]
      · by_cases h₂' : b₂ < a₂
        · have hne₂ : ¬ a₂ = b₂ := fun he => absurd (he ▸ h₂') (lt_irrefl _)
          simp [lexLt, h₁, h₁', he₁, h₂, h₂', hne₂]
        · have he₂ : a₂ = b₂ := le_antisymm (not_lt.mp h₂') (not_lt.mp h₂)
          by_cases h₃ : a₃ < b₃
          · simp [lexLt, h₁, h₁', he₁, h₂, h₂', he₂, h₃]
          · by_cases h₃' : b₃ < a₃
            · have hne₃ : ¬ a₃ = b₃ := fun he => absurd (he ▸ h₃') (lt_irrefl _)
              simp [lexLt, h₁, h₁', he₁, h₂, h₂', he₂, h₃, h₃', hne₃]
            · have he₃ : a₃ = b₃ := le_antisymm (not_lt.mp h₃') (not_lt.mp h₃)
              simp [lexLt, h₁, h₁', he₁, h₂, h₂', he₂, h₃, h₃', he₃]

theorem displayId_lexLt_iff (pre : List Char) (k m : Nat)
    (hk₁ : 1 ≤ k) (hk₂ : k ≤ 999) (hm₁ : 1 ≤ m) (hm₂ : m ≤ 999) :
    (lexLt (displayId pre k).data (displayId pre m).data = true ↔ k < m) := by
  show lexLt (pre ++ zfill 3 (Nat.repr k).data) (pre ++ zfill 3 (Nat.repr m).data)
      = true ↔ k < m
  rw [zfill_repr k (by omega), zfill_repr m (by omega), lexLt_append_same, lexLt_triple]
  rw [digitChar_lt_iff (k / 100) (by omega) (m / 100) (by omega),
    digitChar_inj_iff (k / 100) (by omega) (m / 100) (by omega),
    digitChar_lt_iff (k / 10 % 10) (by omega) (m / 10 % 10) (by omega),
    digitChar_inj_iff (k / 10 % 10) (by omega) (m / 10 % 10) (by omega),
    digitChar_lt_iff (k % 10) (by omega) (m % 10) (by omega)]
  omega

theorem foldMax_displayId (pre : List Char) :
    ∀ (xs : List Nat) (a : Nat), 1 ≤ a → a ≤ 999 → (∀ x ∈ xs, 1 ≤ x ∧ x ≤ 999) →
      List.foldl
        (fun acc s =>
          match acc with
          | none => some s
          | some t => if lexLt t.data s.data then some s else some t)
        (some (displayId pre a)) (xs.map (displayId pre))
      = some (displayId pre (xs.foldl max a)) := by
  intro xs
  induction xs with
  | nil => intros; rfl
  | cons x xs ih =>
    intro a ha₁ ha₂ hall
    have hx := hall x (List.mem_cons_self x xs)
    have htail : ∀ y ∈ xs, 1 ≤ y ∧ y ≤ 999 :=
      fun y hy => hall y (List.mem_cons_of_mem x hy)
    simp only [List.map_cons, List.foldl_cons]
    by_cases h : a < x
    · have hlex : lexLt (displayId pre a).data (displayId pre x).data = true :=
        (displayId_lexLt_iff pre a x ha₁ ha₂ hx.1 hx.2).mpr h
      rw [hlex]
      simp only [if_true]
      rw [ih x hx.1 hx.2 htail]
      rw [show max a x = x from max_eq_right (le_of_lt h)]
    · have hlex : lexLt (displayId pre a).data (displayId pre x).data = false := by
        simpa using mt (displayId_lexLt_iff pre a x ha₁ ha₂ hx.1 hx.2).mp h
      rw [hlex]
      simp only [Bool.false_eq_true, if_false]
      rw [ih a ha₁ ha₂ htail]
      rw [show max a x = a from max_eq_left (not_lt.mp h)]

theorem lexMaxStr_displayId (pre : List Char) (x : Nat) (xs : List Nat)
    (hb : ∀ k ∈ x :: xs, 1 ≤ k ∧ k ≤ 999) :
    lexMaxStr ((x :: xs).map (displayId pre))
      = some (displayId pre ((x :: xs).foldl max 0)) := by
  have hx := hb x (List.mem_cons_self x xs)
  have htail : ∀ y ∈ xs, 1 ≤ y ∧ y ≤ 999 :=
    fun y hy => hb y (List.mem_cons_of_mem x hy)
  show List.foldl _ none ((x :: xs).map (displayId pre)) = _
  simp only [List.map_cons, List.foldl_cons]
  rw [show max 0 x = x from max_eq_right (Nat.zero_le x)]
  exact foldMax_displayId pre xs x hx.1 hx.2 htail

theorem foldl_max_le : ∀ (xs : List Nat) (a : Nat), a ≤ 999 → (∀ x ∈ xs, x ≤ 999) →
    xs.foldl max a ≤ 999 := by
  intro xs
  induction xs with
  | nil => intro a ha _; exact ha
  | cons x xs ih =>
    intro a ha hall
    simp only [List.foldl_cons]
    exact ih (max a x)
      (max_le ha (hall x (List.mem_cons_self x xs)))
      (fun y hy => hall y (List.mem_cons_of_mem x hy))

theorem parseSuffix_stu : ∀ n, n < 1000 → parseSuffix (displayId stuPre n) = n := by
  decide

theorem parseSuffix_course : ∀ n, n < 1000 → parseSuffix (displayId coursePre n) = n := by
  decide

/-- C7 counterexample: in the reachable users state
`[STU_999, STU_1000]` (created by 1000 successive registrations), the
code reads the lexicographic maximum `STU_999`, so it derives the
already-taken id `STU_1000`, whereas the numeric maximum suffix is 1000
and the claim's id would be `STU_1001`. -/
theorem claim_C7_counterexample :
    nextStudentSuffix [mkStudent "STU_999", mkStudent "STU_1000"] = 1000 ∧
    displayId stuPre (nextStudentSuffix [mkStudent "STU_999", mkStudent "STU_1000"])
      = "STU_1000" ∧
    (([mkStudent "STU_999", mkStudent "STU_1000"].map
        (fun u => parseSuffix u.userId)).foldl max 0) + 1 = 1001 ∧
    displayId stuPre 1001 = "STU_1001" ∧
    ("STU_1000" : String) ≠ "STU_1001" := by
  refine ⟨by decide, by decide, by decide, by decide, by decide⟩

/-- C7 as amended: as long as every existing student (resp. course)
display id is the fixed stem followed by a zero-padded 3-digit suffix
in 1..999, the id-generation block of `register_new_student`
(resp. `create_new_course`) derives suffix (maximum existing numeric
suffix + 1); with no existing record the suffix is 1 (`STU_001`,
`COURSE_001`). -/
theorem claim_C7_amended_next_ids (users : List UserDoc) (courses : List Course)
    (ks cs : List Nat)
    (hu : (users.filter (fun u => u.role = "student")).map (fun u => u.userId)
        = ks.map (displayId stuPre))
    (hkb : ∀ k ∈ ks, 1 ≤ k ∧ k ≤ 999)
    (hc : courses.map (fun c => c.courseId) = cs.map (displayId coursePre))
    (hcb : ∀ k ∈ cs, 1 ≤ k ∧ k ≤ 999) :
    nextStudentSuffix users = ks.foldl max 0 + 1 ∧
    nextCourseSuffix courses = cs.foldl max 0 + 1 := by
  constructor
  · unfold nextStudentSuffix
    rw [hu]
    cases ks with
    | nil => rfl
    | cons x xs =>
      rw [lexMaxStr_displayId stuPre x xs hkb]
      show parseSuffix (displayId stuPre ((x :: xs).foldl max 0)) + 1 = _
      rw [parseSuffix_stu ((x :: xs).foldl max 0)
        (by
          have := foldl_max_le (x :: xs) 0 (by omega) (fun y hy => (hkb y hy).2)
          omega)]
  · unfold nextCourseSuffix
    rw [hc]
    cases cs with
    | nil => rfl
    | cons x xs =>
      rw [lexMaxStr_displayId coursePre x xs hcb]
      show parseSuffix (displayId coursePre ((x :: xs).foldl max 0)) + 1 = _
      rw [parseSuffix_course ((x :: xs).foldl max 0)
        (by
          have := foldl_max_le (x :: xs) 0 (by omega) (fun y hy => (hcb y hy).2)
          omega)]

theorem claim_C7_witness :
    (([mkStudent "STU_001", mkStudent "STU_002", mkInstructor "INST_001"].filter
        (fun u => u.role = "student")).map (fun u => u.userId)
      = [1, 2].map (displayId stuPre)) ∧
    (∀ k ∈ [1, 2], 1 ≤ k ∧ k ≤ 999) ∧
    ([mkCourse "COURSE_001" "Programming" 150].map (fun c => c.courseId)
      = [1].map (displayId coursePre)) ∧
    (∀ k ∈ [1], 1 ≤ k ∧ k ≤ 999) ∧
    nextStudentSuffix [mkStudent "STU_001", mkStudent "STU_002", mkInstructor "INST_001"]
      = 3 ∧
    nextCourseSuffix [mkCourse "COURSE_001" "Programming" 150] = 2 :=
  ⟨by decide, by decide, by decide, by decide,
   ((claim_C7_amended_next_ids
      [mkStudent "STU_001", mkStudent "STU_002", mkInstructor "INST_001"]
      [mkCourse "COURSE_001" "Programming" 150] [1, 2] [1]
      (by decide) (by decide) (by decide) (by decide)).1).trans (by decide),
   ((claim_C7_amended_next_ids
      [mkStudent "STU_001", mkStudent "STU_002", mkInstructor "INST_001"]
      [mkCourse "COURSE_001" "Programming" 150] [1, 2] [1]
      (by decide) (by decide) (by decide) (by decide)).2).trans (by decide)⟩

theorem claim_C4_witness :
    (([mkCourse "COURSE_001" "Programming" 150,
        mkCourse "COURSE_002" "Web Development" 200].map (fun c => c.courseId)).Nodup) ∧
    (∀ e ∈ [mkEnrollment "ENROLL_001" "STU_001" "COURSE_001",
        mkEnrollment "ENROLL_002" "STU_001" "COURSE_002"],
      ∃ c ∈ [mkCourse "COURSE_001" "Programming" 150,
        mkCourse "COURSE_002" "Web Development" 200], c.courseId = e.courseId) ∧
    (∀ c ∈ [mkCourse "COURSE_001" "Programming" 150,
        mkCourse "COURSE_002" "Web Development" 200], c.category ≠ none) ∧
    ((courseEnrollmentStatistics
        [mkCourse "COURSE_001" "Programming" 150,
          mkCourse "COURSE_002" "Web Development" 200]
        [mkEnrollment "ENROLL_001" "STU_001" "COURSE_001",
          mkEnrollment "ENROLL_002" "STU_001" "COURSE_002"]).map
      (fun b => b.totalEnrollments)).sum = 2 :=
  ⟨by decide, by decide, by decide,
   (claim_C4_enrollment_conservation
      [mkCourse "COURSE_001" "Programming" 150,
        mkCourse "COURSE_002" "Web Development" 200]
      [mkEnrollment "ENROLL_001" "STU_001" "COURSE_001",
        mkEnrollment "ENROLL_002" "STU_001" "COURSE_002"]
      (by decide) (by decide) (by decide)).trans (by decide)⟩
